import Mathlib

/-!
Shallow embedding of `@zakkudo/api-tree` (files `src/index.js`,
`src/ValidationError.js`, and the sibling variant implementation of
`getMatchingOverload`), together with theorems settling the claims about
its specification.  JavaScript objects are modelled as association lists
with last-entry-wins lookup, which matches the semantics of
`Object.assign` chains; the external collaborators (the `fetch` transport
and the ajv schema engine) are modelled as parameters, as the spec
declares them out of scope.
-/

namespace ApiTree

/-- A JavaScript value as it occurs in configuration trees and options
objects: strings, numbers, booleans, null, and plain objects. -/
inductive JsValue where
  | str (s : String)
  | num (n : Int)
  | bool (b : Bool)
  | null
  | obj (fields : List (String × JsValue))

/-- A plain JavaScript object, as an association list.  Lookup takes the
last entry for a key, so that list concatenation models the key-wise
override semantics of `Object.assign`. -/
abbrev Obj := List (String × JsValue)

/-- Property lookup on an object: the last entry for the key wins, so
`olookup (a ++ b) k` sees `b`'s entry for `k` when there is one,
mirroring `Object.assign(\x7b\x7d, a, b)[k]`. -/
def olookup : Obj → String → Option JsValue
  | [], _ => none
  | (k, v) :: rest, key =>
    match olookup rest key with
    | some w => some w
    | none => if k = key then some v else none

/-- `o.hasOwnProperty(k)` for a plain object. -/
def hasKey (o : Obj) (k : String) : Bool :=
  o.any fun p => p.1 == k

/-- `o.params || \x7b\x7d` as used throughout `index.js`: the fields of the
`params` sub-object when present, otherwise empty.  A non-object truthy
`params` value never occurs in the configurations the code documents. -/
def paramsOf (o : Obj) : Obj :=
  match olookup o "params" with
  | some (.obj fs) => fs
  | _ => []

/-- State of the left-to-right scan implementing the global regex
`\/:[^\/]+` from `getTemplateVariables`: scanning, just after a slash,
just after a slash-colon pair, or collecting a placeholder name
(accumulated in reverse). -/
inductive TVState where
  | scan
  | slash
  | colon
  | collect (acc : List Char)

/-- One pass over the path characters reproducing
`pathname.match(/\/:[^\/]+/g).map((p) => p.slice(2))`: each maximal
run of non-slash characters following a `/:` pair is one template
variable, and scanning resumes at the terminating slash. -/
def templateVarsAux : TVState → List Char → List String
  | .scan, [] => []
  | .slash, [] => []
  | .colon, [] => []
  | .collect acc, [] => [String.mk acc.reverse]
  | .scan, c :: rest =>
    templateVarsAux (if c = '/' then .slash else .scan) rest
  | .slash, c :: rest =>
    if c = ':' then templateVarsAux .colon rest
    else if c = '/' then templateVarsAux .slash rest
    else templateVarsAux .scan rest
  | .colon, c :: rest =>
    if c = '/' then templateVarsAux .slash rest
    else templateVarsAux (.collect [c]) rest
  | .collect acc, c :: rest =>
    if c = '/' then String.mk acc.reverse :: templateVarsAux .slash rest
    else templateVarsAux (.collect (c :: acc)) rest

/-- `getTemplateVariables(pathname)` from `src/index.js`: the ordered
names of the `:`-prefixed placeholders of a path template. -/
def getTemplateVariables (pathname : String) : List String :=
  templateVarsAux .scan pathname.data

/-- The score reduce of `getMatchingOverload` in `src/index.js`:
`accumulator + 1` for a template variable present in the merged params,
`accumulator` unchanged otherwise. -/
def countPresent (vars : List String) (params : Obj) : Int :=
  vars.foldl (fun acc v => if hasKey params v then acc + 1 else acc) 0

/-- The score reduce of the variant implementation: `accumulator + 1`
for a present template variable and `accumulator - 1` for an absent
one. -/
def countPresentMinusAbsent (vars : List String) (params : Obj) : Int :=
  vars.foldl (fun acc v => if hasKey params v then acc + 1 else acc - 1) 0

/-- One endpoint definition `[pathname, options, schema]`; missing
`options` destructure to the empty object and a missing `schema` to the
empty object at its use sites. -/
structure Endpoint where
  pathname : String
  options : Obj
  schema : JsValue

/-- The merged parameter set computed per candidate inside
`getMatchingOverload`:
`Object.assign(\x7b\x7d, baseOptions.params || \x7b\x7d, options.params || \x7b\x7d, overrideParams)`. -/
def mergedParams (baseOptions : Obj) (endpointOptions : Obj) (overrideParams : Obj) : Obj :=
  paramsOf baseOptions ++ paramsOf endpointOptions ++ overrideParams

/-- The `overloads.forEach` loop of `getMatchingOverload` in
`src/index.js`, carrying the running position, best score
(`matchCount`) and best index (`matchIndex`); only a strictly greater
score replaces the running best. -/
def getMatchingOverloadAux (baseOptions : Obj) (overrideParams : Obj) :
    List Endpoint → Nat → Int → Int → Int
  | [], _, _, matchIndex => matchIndex
  | o :: rest, index, matchCount, matchIndex =>
    let params := mergedParams baseOptions o.options overrideParams
    let count := countPresent (getTemplateVariables o.pathname) params
    if count > matchCount then
      getMatchingOverloadAux baseOptions overrideParams rest (index + 1) count (index : Int)
    else
      getMatchingOverloadAux baseOptions overrideParams rest (index + 1) matchCount matchIndex

/-- `getMatchingOverload(overloads, baseOptions, overrideOptions)` from
`src/index.js`: best score starts at `-1` and best index at `-1`. -/
def getMatchingOverload (overloads : List Endpoint) (baseOptions overrideOptions : Obj) : Int :=
  getMatchingOverloadAux baseOptions (paramsOf overrideOptions) overloads 0 (-1) (-1)

/-- The loop of the variant `getMatchingOverload` (the sibling
implementation with present-minus-absent scoring). -/
def getMatchingOverloadVariantAux (baseOptions : Obj) (overrideParams : Obj) :
    List Endpoint → Nat → Int → Int → Int
  | [], _, _, matchIndex => matchIndex
  | o :: rest, index, matchCount, matchIndex =>
    let params := mergedParams baseOptions o.options overrideParams
    let count := countPresentMinusAbsent (getTemplateVariables o.pathname) params
    if count > matchCount then
      getMatchingOverloadVariantAux baseOptions overrideParams rest (index + 1) count (index : Int)
    else
      getMatchingOverloadVariantAux baseOptions overrideParams rest (index + 1) matchCount matchIndex

/-- The variant `getMatchingOverload`: best score starts at `-1` and
best index at `0`. -/
def getMatchingOverloadVariant (overloads : List Endpoint) (baseOptions overrideOptions : Obj) : Int :=
  getMatchingOverloadVariantAux baseOptions (paramsOf overrideOptions) overloads 0 (-1) 0

/-- One entry of the error array the schema engine reports. -/
structure VError where
  dataPath : String
  message : String
deriving DecidableEq

/-- A compiled schema validation function as produced by
`validator.compile(schema)`.  `run` is the pure validation semantics
compilation attaches (the engine itself is the external
schema-validation collaborator); `errors` is the mutable `.errors`
own-property the engine sets on the compiled function, with `none`
standing for the falsy `null`/`undefined` states. -/
structure CompiledValidator where
  run : Obj → List VError
  errors : Option (List VError)

/-- Invoking a compiled validator on `data`: the engine stores `null` in
`.errors` on success and the non-empty error array on failure. -/
def runCompiled (cv : CompiledValidator) (data : Obj) : CompiledValidator :=
  ⟨cv.run,
    match cv.run data with
    | [] => none
    | e :: es => some (e :: es)⟩

/-- The data carried by `new ValidationError(url, errors, schema)` from
`src/ValidationError.js`. -/
structure ValidationError where
  url : String
  errors : List VError
  schema : JsValue

/-- The observable outcome of one dispatch call.  `rejected` is the
rejected deferred result `Promise.reject(new ValidationError(...))`
(not a synchronous throw); `fetched` records the single transport
invocation `fetch(url, options)`; `thrown` is a synchronous
`TypeError`, which the overloaded dispatcher would raise if it ever
destructured a missing overload. -/
inductive DispatchResult where
  | rejected (e : ValidationError)
  | fetched (url : String) (options : Obj)
  | thrown

/-- The fields of the tree root that a generated dispatch closure reads
on every call: `self.baseUrl` and the snapshot `self.options.toJS()`. -/
structure Root where
  baseUrl : String
  options : Obj

/-- The closure returned by `generateFetchMethod` for a single
(non-overloaded) endpoint definition, lines 105-126 of `src/index.js`:
snapshot the base options, shallow-merge
`Object.assign(baseOptions, endpointOptions, overrideOptions)` (the
snapshot is fresh per call, so mutating it in place is equivalent to
merging into an empty object), build the URL, delete the compiled
validator's `.errors`, run it unless `validate` is false, and either
reject with a `ValidationError` or invoke the transport once.  Returns
the result together with the compiled validator's updated state, which
persists to the next call. -/
def fetchMethodSingle (self : Root) (cfg : Endpoint) (cv : CompiledValidator)
    (overrideOptions : Obj) (validate : Bool) : DispatchResult × CompiledValidator :=
  let baseOptions := self.options
  let options := baseOptions ++ cfg.options ++ overrideOptions
  let url := self.baseUrl ++ cfg.pathname
  let cv1 : CompiledValidator := ⟨cv.run, none⟩
  let cv2 := if validate then runCompiled cv1 options else cv1
  match cv2.errors with
  | some es => (.rejected ⟨url, es, cfg.schema⟩, cv2)
  | none => (.fetched url options, cv2)

/-- The closure returned by `generateFetchMethod` for an overload group,
lines 73-99 of `src/index.js`: select the overload via
`getMatchingOverload`, merge
`Object.assign(\x7b\x7d, baseOptions, endpointOptions, overrideOptions)`,
build the URL, clear and (unless skipped) run the compiled validator at
the selected index, and reject or invoke the transport.  Accessing
`config[index]` outside the array would destructure `undefined` and
throw. -/
def fetchMethodOverloaded (self : Root) (config : List Endpoint)
    (compiled : List CompiledValidator) (overrideOptions : Obj) (validate : Bool) :
    DispatchResult × List CompiledValidator :=
  let baseOptions := self.options
  let index := getMatchingOverload config baseOptions overrideOptions
  if index < 0 then (.thrown, compiled)
  else
    match config.get? index.toNat, compiled.get? index.toNat with
    | some overload, some cv =>
      let options := baseOptions ++ overload.options ++ overrideOptions
      let url := self.baseUrl ++ overload.pathname
      let cv1 : CompiledValidator := ⟨cv.run, none⟩
      let cv2 := if validate then runCompiled cv1 options else cv1
      let compiled2 := compiled.set index.toNat cv2
      match cv2.errors with
      | some es => (.rejected ⟨url, es, overload.schema⟩, compiled2)
      | none => (.fetched url options, compiled2)
    | _, _ => (.thrown, compiled)

/-- The URL a dispatch outcome is about: the rejection's URL or the URL
handed to the transport. -/
def resultUrl : DispatchResult → Option String
  | .rejected e => some e.url
  | .fetched u _ => some u
  | .thrown => none

/-- A node of the configuration tree handed to the `ApiTree`
constructor, classified the way `parse` classifies it: a single
endpoint array, an overload group (an array whose first element is an
array), a plain object to recurse into, or a passed-through primitive
leaf (`value` holds non-object data; plain objects are always the
`subtree` case for `parse`). -/
inductive ConfigNode where
  | endpoint (e : Endpoint)
  | overload (es : List Endpoint)
  | subtree (fields : List (String × ConfigNode))
  | value (v : JsValue)

/-- A node of the parsed api tree: a dispatch closure for a single
endpoint (holding its compiled validator), a dispatch closure for an
overload group (holding one compiled validator per candidate), an
immutable map produced by `fromJS` (the only node kind exposing
`toJS`), a nested plain object, or passed-through plain data. -/
inductive ApiNode where
  | fetchSingle (cfg : Endpoint) (cv : CompiledValidator)
  | fetchOverloaded (config : List Endpoint) (compiled : List CompiledValidator)
  | imap (v : JsValue)
  | subtree (fields : List (String × ApiNode))
  | value (v : JsValue)

mutual

/-- `parse(self, data)` from `src/index.js`, with `compile` the
external `validator.compile` capability: arrays become dispatch
closures (compiling `c[2] || \x7b\x7d` for each overload, or the single
schema), plain objects are rebuilt key by key, and anything else passes
through.  The bound-convenience-function branch delegates trivially and
carries no data, so it has no counterpart node. -/
def parseNode (compile : JsValue → Obj → List VError) : ConfigNode → ApiNode
  | .endpoint e => .fetchSingle e ⟨compile e.schema, none⟩
  | .overload es => .fetchOverloaded es (es.map fun e => ⟨compile e.schema, none⟩)
  | .subtree fs => .subtree (parseFields compile fs)
  | .value v => .value v

/-- The `Object.keys(data).reduce` of the plain-object branch of
`parse`: parse every entry, preserving keys and order. -/
def parseFields (compile : JsValue → Obj → List VError) :
    List (String × ConfigNode) → List (String × ApiNode)
  | [] => []
  | (k, n) :: rest => (k, parseNode compile n) :: parseFields compile rest

end

/-- JavaScript truthiness of a value, for `baseUrl || ''`. -/
def truthy : JsValue → Bool
  | .str s => !s.isEmpty
  | .num n => n != 0
  | .bool b => b
  | .null => false
  | .obj _ => true

/-- String interpolation of a primitive value, for the template literal
building the URL. -/
def jsToString : JsValue → String
  | .str s => s
  | .num n => toString n
  | .bool b => if b then "true" else "false"
  | .null => "null"
  | .obj _ => "[object Object]"

/-- Interpolating a tree node into the URL template literal.  Only
plain-value nodes occur as `baseUrl` in the configurations under study;
the JS stringifications of functions and maps are not needed. -/
def nodeToString : ApiNode → String
  | .value v => jsToString v
  | _ => ""

/-- `self.options.toJS()`: defined only on the immutable map the
constructor installs.  Every other node kind lacks a `toJS` method, so
calling it throws. -/
def toJS : ApiNode → Option Obj
  | .imap (.obj fs) => some fs
  | _ => none

/-- The root object built by the `ApiTree` constructor: its own
`baseUrl` and `options` properties plus the properties copied from the
parsed configuration tree.  The fields hold arbitrary nodes because
`Object.assign` may overwrite them with parsed tree values. -/
structure Tree where
  baseUrl : ApiNode
  options : ApiNode
  children : List (String × ApiNode)

/-- `Object.assign(this, parsedFields)`, applied left to right: an
entry keyed `baseUrl` or `options` lands on the root's own field of
that name, every other entry becomes a sibling property. -/
def assignParsed (t : Tree) : List (String × ApiNode) → Tree
  | [] => t
  | (k, n) :: rest =>
    if k = "baseUrl" then assignParsed ⟨n, t.options, t.children⟩ rest
    else if k = "options" then assignParsed ⟨t.baseUrl, n, t.children⟩ rest
    else assignParsed ⟨t.baseUrl, t.options, t.children ++ [(k, n)]⟩ rest

/-- The `ApiTree` constructor: `this.baseUrl = baseUrl || ''`, then
`this.options = fromJS(options)`, then
`Object.assign(this, parse(this, tree))`.  When the parsed tree is not
a plain object (a top-level array parses to a bare function) the assign
copies no enumerable own properties. -/
def construct (compile : JsValue → Obj → List VError) (baseUrl : JsValue)
    (tree : ConfigNode) (options : Obj) : Tree :=
  let t0 : Tree :=
    ⟨.value (if truthy baseUrl then baseUrl else .str ""), .imap (.obj options), []⟩
  match parseNode compile tree with
  | .subtree fs => assignParsed t0 fs
  | _ => t0

/-- A holder of a reference to the root replacing the tree-wide options
fragment after construction (`api.options = fromJS(newOptions)`). -/
def setOptions (t : Tree) (o : Obj) : Tree :=
  ⟨t.baseUrl, .imap (.obj o), t.children⟩

/-- Calling a stored dispatch node against the current root: the
closure first evaluates `self.options.toJS()` (throwing when the
`options` property no longer is an immutable map), reads
`self.baseUrl`, and then runs the dispatch pipeline.  The updated node
carries the compiled validator state forward. -/
def callNode (self : Tree) : ApiNode → Obj → Bool → DispatchResult × ApiNode
  | .fetchSingle cfg cv, overrideOptions, validate =>
    (match toJS self.options with
     | none => (.thrown, .fetchSingle cfg cv)
     | some base =>
       let r := fetchMethodSingle ⟨nodeToString self.baseUrl, base⟩ cfg cv overrideOptions validate
       (r.1, .fetchSingle cfg r.2))
  | .fetchOverloaded config compiled, overrideOptions, validate =>
    (match toJS self.options with
     | none => (.thrown, .fetchOverloaded config compiled)
     | some base =>
       let r := fetchMethodOverloaded ⟨nodeToString self.baseUrl, base⟩ config compiled
         overrideOptions validate
       (r.1, .fetchOverloaded config r.2))
  | n, _, _ => (.thrown, n)

/-! Helper lemmas shared by the claim theorems. -/

/-- The present-only score reduce never decreases its accumulator. -/
lemma le_foldl_countPresent (ps : Obj) :
    ∀ (vs : List String) (acc : Int),
      acc ≤ vs.foldl (fun a v => if hasKey ps v then a + 1 else a) acc := by
  intro vs
  induction vs with
  | nil => intro acc; simp
  | cons v vs ih =>
    intro acc
    simp only [List.foldl_cons]
    calc acc ≤ (if hasKey ps v then acc + 1 else acc) := by split <;> omega
      _ ≤ _ := ih _

/-- The score `getMatchingOverload` of `src/index.js` computes is never
negative. -/
lemma countPresent_nonneg (vs : List String) (ps : Obj) : 0 ≤ countPresent vs ps :=
  le_foldl_countPresent ps vs 0

/-- The matcher loop either keeps the incoming best index or returns the
position of one of the candidates it scanned. -/
lemma getMatchingOverloadAux_cases (b ov : Obj) :
    ∀ (l : List Endpoint) (idx : Nat) (mc mi : Int),
      getMatchingOverloadAux b ov l idx mc mi = mi ∨
      ((idx : Int) ≤ getMatchingOverloadAux b ov l idx mc mi ∧
        getMatchingOverloadAux b ov l idx mc mi < (idx : Int) + l.length) := by
  intro l
  induction l with
  | nil => intro idx mc mi; left; rfl
  | cons o rest ih =>
    intro idx mc mi
    simp only [getMatchingOverloadAux]
    split
    · rcases ih (idx + 1) _ (idx : Int) with h | h
      · right
        rw [h]
        simp only [List.length_cons]
        push_cast
        omega
      · right
        simp only [List.length_cons]
        push_cast at h ⊢
        omega
    · rcases ih (idx + 1) mc mi with h | h
      · left; exact h
      · right
        simp only [List.length_cons]
        push_cast at h ⊢
        omega

/-- The variant matcher loop satisfies the same range alternative. -/
lemma getMatchingOverloadVariantAux_cases (b ov : Obj) :
    ∀ (l : List Endpoint) (idx : Nat) (mc mi : Int),
      getMatchingOverloadVariantAux b ov l idx mc mi = mi ∨
      ((idx : Int) ≤ getMatchingOverloadVariantAux b ov l idx mc mi ∧
        getMatchingOverloadVariantAux b ov l idx mc mi < (idx : Int) + l.length) := by
  intro l
  induction l with
  | nil => intro idx mc mi; left; rfl
  | cons o rest ih =>
    intro idx mc mi
    simp only [getMatchingOverloadVariantAux]
    split
    · rcases ih (idx + 1) _ (idx : Int) with h | h
      · right
        rw [h]
        simp only [List.length_cons]
        push_cast
        omega
      · right
        simp only [List.length_cons]
        push_cast at h ⊢
        omega
    · rcases ih (idx + 1) mc mi with h | h
      · left; exact h
      · right
        simp only [List.length_cons]
        push_cast at h ⊢
        omega

/-- Looking a key up in a concatenation takes the right (higher
precedence) operand's entry when it has one, which is exactly the
override semantics of an `Object.assign` chain. -/
lemma olookup_append (xs ys : Obj) (k : String) :
    olookup (xs ++ ys) k = Option.orElse (olookup ys k) (fun _ => olookup xs k) := by
  induction xs with
  | nil =>
    simp only [List.nil_append]
    cases olookup ys k <;> rfl
  | cons p xs ih =>
    obtain ⟨k1, v1⟩ := p
    have hstep : olookup ((k1, v1) :: xs ++ ys) k =
        match olookup (xs ++ ys) k with
        | some w => some w
        | none => if k1 = k then some v1 else none := rfl
    have hstep2 : olookup ((k1, v1) :: xs) k =
        match olookup xs k with
        | some w => some w
        | none => if k1 = k then some v1 else none := rfl
    rw [hstep, ih, hstep2]
    cases olookup ys k <;> cases olookup xs k <;> rfl

/-- Key membership distributes over object concatenation. -/
lemma hasKey_append (xs ys : Obj) (k : String) :
    hasKey (xs ++ ys) k = (hasKey xs k || hasKey ys k) := by
  simp [hasKey, List.any_append]

/-- A concrete compiled validator used by witnesses: it reports one
required-property error unless the `params` sub-object supplies
`firstName`, the shape of the `required` schema of `src/test.js`. -/
def requireFirstName : CompiledValidator :=
  ⟨fun o =>
    if hasKey (paramsOf o) "firstName" then []
    else [⟨".params", "should have required property firstName"⟩], none⟩

/-! The claim theorems. -/

/-- C1: at the failing input — the overload group
`[[/test/path/:id], [/test/path]]` dispatched with no params — the
`getMatchingOverload` of `src/index.js` returns index 0, so the
dispatch function hands the transport the URL ending in
`/test/path/:id`; the claim, the repository's own test
(`uses matching list overload when first` in `src/test.js`, which
expects `https://backend/v1/test/path`), and the sibling variant
implementation all require the placeholder-free index 1.  The
remaining scenarios of the claim do hold of `src/index.js`: with
`params.id` supplied the group selects index 0, and with the
declaration order swapped both the no-params call (index 0) and the
with-id call (index 1) pick the placeholder-appropriate candidate. -/
theorem c1_matcher_at_failing_input :
    getMatchingOverload
      [⟨"/test/path/:id", [], .obj []⟩, ⟨"/test/path", [], .obj []⟩] [] [] = 0 ∧
    (fetchMethodOverloaded ⟨"https://backend/v1", []⟩
      [⟨"/test/path/:id", [], .obj []⟩, ⟨"/test/path", [], .obj []⟩]
      [⟨fun _ => [], none⟩, ⟨fun _ => [], none⟩] [] true).1 =
      .fetched "https://backend/v1/test/path/:id" [] ∧
    getMatchingOverloadVariant
      [⟨"/test/path/:id", [], .obj []⟩, ⟨"/test/path", [], .obj []⟩] [] [] = 1 ∧
    getMatchingOverload
      [⟨"/test/path/:id", [], .obj []⟩, ⟨"/test/path", [], .obj []⟩] []
      [("params", .obj [("id", .str "1234")])] = 0 ∧
    getMatchingOverload
      [⟨"/test/path", [], .obj []⟩, ⟨"/test/path/:id", [], .obj []⟩] [] [] = 0 ∧
    getMatchingOverload
      [⟨"/test/path", [], .obj []⟩, ⟨"/test/path/:id", [], .obj []⟩] []
      [("params", .obj [("id", .str "1234")])] = 1 :=
  ⟨rfl, rfl, rfl, rfl, rfl, rfl⟩

/-- C4: for the group `[[/users/:userId/roles], [/users/:userId/roles/:roleId]]`,
`getMatchingOverload` selects index 1 when both `userId` and `roleId`
are supplied (the candidate using strictly more of the params) and
index 0 when only `userId` is supplied (equal scores keep the earlier
index, because only a strictly greater score replaces the running
best). -/
theorem c4_tie_break_determinism :
    getMatchingOverload
      [⟨"/users/:userId/roles", [], .obj []⟩, ⟨"/users/:userId/roles/:roleId", [], .obj []⟩]
      [] [("params", .obj [("userId", .str "1234"), ("roleId", .str "5678")])] = 1 ∧
    getMatchingOverload
      [⟨"/users/:userId/roles", [], .obj []⟩, ⟨"/users/:userId/roles/:roleId", [], .obj []⟩]
      [] [("params", .obj [("userId", .str "1234")])] = 0 :=
  ⟨rfl, rfl⟩

/-- C5: on every non-empty overload group and any base and override
options, the matcher returns exactly one index and it is within the
bounds of the group — for the `src/index.js` implementation and for the
sibling variant alike — so indexing `config[index]` never destructures
a missing element. -/
theorem c5_matcher_index_in_range (overloads : List Endpoint)
    (baseOptions overrideOptions : Obj) (h : overloads ≠ []) :
    (0 ≤ getMatchingOverload overloads baseOptions overrideOptions ∧
      (getMatchingOverload overloads baseOptions overrideOptions).toNat < overloads.length) ∧
    (0 ≤ getMatchingOverloadVariant overloads baseOptions overrideOptions ∧
      (getMatchingOverloadVariant overloads baseOptions overrideOptions).toNat
        < overloads.length) := by
  obtain ⟨o, rest, rfl⟩ : ∃ o rest, overloads = o :: rest := by
    cases overloads with
    | nil => exact absurd rfl h
    | cons o rest => exact ⟨o, rest, rfl⟩
  constructor
  · have h0 := countPresent_nonneg (getTemplateVariables o.pathname)
      (mergedParams baseOptions o.options (paramsOf overrideOptions))
    unfold getMatchingOverload
    simp only [getMatchingOverloadAux]
    rw [if_pos (by omega)]
    rcases getMatchingOverloadAux_cases baseOptions (paramsOf overrideOptions)
        rest (0 + 1)
        (countPresent (getTemplateVariables o.pathname)
          (mergedParams baseOptions o.options (paramsOf overrideOptions)))
        (((0 : Nat) : Int)) with h1 | h1
    · rw [h1]
      simp
    · simp only [List.length_cons]
      omega
  · unfold getMatchingOverloadVariant
    rcases getMatchingOverloadVariantAux_cases baseOptions (paramsOf overrideOptions)
        (o :: rest) 0 (-1) 0 with h1 | h1
    · rw [h1]
      simp
    · omega

/-- C2, counterexample: the claim fails on the code.  With base options
whose `params` holds key `a` and override options whose `params` holds
key `b`, the single-endpoint dispatch hands the transport options whose
`params` lookup resolves wholesale to the override sub-object, so key
`a` is absent from the transported `params` even though the key-wise
merge of the three scopes (computed only inside the overload matcher,
as `mergedParams`) contains it. -/
theorem c2_params_wholesale_counterexample :
    (fetchMethodSingle ⟨"https://backend", [("params", .obj [("a", .num 1)])]⟩
        ⟨"/test/path", [], .obj []⟩ ⟨fun _ => [], none⟩
        [("params", .obj [("b", .num 2)])] true).1 =
      .fetched "https://backend/test/path"
        [("params", .obj [("a", .num 1)]), ("params", .obj [("b", .num 2)])] ∧
    paramsOf [("params", JsValue.obj [("a", .num 1)]), ("params", JsValue.obj [("b", .num 2)])] =
      [("b", .num 2)] ∧
    hasKey (paramsOf [("params", JsValue.obj [("a", .num 1)]),
      ("params", JsValue.obj [("b", .num 2)])]) "a" = false ∧
    hasKey (mergedParams [("params", .obj [("a", .num 1)])] []
      (paramsOf [("params", .obj [("b", .num 2)])])) "a" = true :=
  ⟨rfl, rfl, rfl, rfl⟩

/-- C2, amended: for every dispatch call — the single-endpoint
dispatcher and the overloaded dispatcher at its selected overload
alike — the effective options handed to the transport are the shallow
key-wise merge of base, endpoint, and override options with override
winning; in particular the `params` entry is taken wholesale from the
highest-precedence scope that defines one (override, else endpoint,
else base) rather than merged key by key.  Only the overload matcher
sees the key-wise union of the three `params` scopes. -/
theorem c2_params_wholesale_amended :
    (∀ (self : Root) (cfg : Endpoint) (cv : CompiledValidator) (overrideOptions : Obj)
        (validate : Bool) (u : String) (o : Obj),
      (fetchMethodSingle self cfg cv overrideOptions validate).1 = .fetched u o →
      ∀ k, olookup o k =
        Option.orElse (olookup overrideOptions k)
          (fun _ => Option.orElse (olookup cfg.options k)
            (fun _ => olookup self.options k))) ∧
    (∀ (self : Root) (config : List Endpoint) (compiled : List CompiledValidator)
        (overrideOptions : Obj) (validate : Bool) (overload : Endpoint)
        (cv : CompiledValidator) (u : String) (o : Obj),
      ¬ getMatchingOverload config self.options overrideOptions < 0 →
      config.get? (getMatchingOverload config self.options overrideOptions).toNat =
        some overload →
      compiled.get? (getMatchingOverload config self.options overrideOptions).toNat =
        some cv →
      (fetchMethodOverloaded self config compiled overrideOptions validate).1 =
        .fetched u o →
      ∀ k, olookup o k =
        Option.orElse (olookup overrideOptions k)
          (fun _ => Option.orElse (olookup overload.options k)
            (fun _ => olookup self.options k))) ∧
    (∀ (baseOptions endpointOptions overrideParams : Obj) (k : String),
      hasKey (mergedParams baseOptions endpointOptions overrideParams) k =
        (hasKey (paramsOf baseOptions) k || hasKey (paramsOf endpointOptions) k
          || hasKey overrideParams k)) := by
  refine ⟨?_, ?_, ?_⟩
  · intro self cfg cv ov validate u o h k
    have ho : o = self.options ++ cfg.options ++ ov := by
      simp only [fetchMethodSingle] at h
      split at h
      · exact absurd h.symm (by simp)
      · exact (DispatchResult.fetched.injEq _ _ _ _).mp h.symm |>.2
    rw [ho, olookup_append, olookup_append]
  · intro self config compiled ov validate overload cv u o hneg hc hcv h k
    have ho : o = self.options ++ overload.options ++ ov := by
      simp only [fetchMethodOverloaded, if_neg hneg, hc, hcv] at h
      split at h
      · exact absurd h.symm (by simp)
      · exact (DispatchResult.fetched.injEq _ _ _ _).mp h.symm |>.2
    rw [ho, olookup_append, olookup_append]
  · intro b e op k
    simp [mergedParams, hasKey_append, Bool.or_assoc]

/-- Witness for C2's amended theorem: both dispatch shapes run at the
counterexample's input (base `params` holding `a`, override `params`
holding `b`) and the `params` entry of the transported options resolves
wholesale to the override sub-object, and the matcher-side merged
params at that input contain every scope's key. -/
theorem c2_params_wholesale_amended_witness :
    olookup ([("params", JsValue.obj [("a", .num 1)])] ++ [] ++
        [("params", JsValue.obj [("b", .num 2)])]) "params" =
      Option.orElse (olookup [("params", JsValue.obj [("b", .num 2)])] "params")
        (fun _ => Option.orElse (olookup ([] : Obj) "params")
          (fun _ => olookup [("params", JsValue.obj [("a", .num 1)])] "params")) ∧
    olookup ([("params", JsValue.obj [("a", .num 1)])] ++ [] ++
        [("params", JsValue.obj [("b", .num 2)])]) "params" =
      Option.orElse (olookup [("params", JsValue.obj [("b", .num 2)])] "params")
        (fun _ => Option.orElse
          (olookup (⟨"/test/path", [], .obj []⟩ : Endpoint).options "params")
          (fun _ => olookup [("params", JsValue.obj [("a", .num 1)])] "params")) ∧
    hasKey (mergedParams [("params", .obj [("a", .num 1)])] []
        (paramsOf [("params", .obj [("b", .num 2)])])) "a" =
      (hasKey (paramsOf [("params", JsValue.obj [("a", .num 1)])]) "a" ||
        hasKey (paramsOf ([] : Obj)) "a" ||
        hasKey (paramsOf [("params", JsValue.obj [("b", .num 2)])]) "a") :=
  ⟨c2_params_wholesale_amended.1 ⟨"https://backend", [("params", .obj [("a", .num 1)])]⟩
      ⟨"/test/path", [], .obj []⟩ ⟨fun _ => [], none⟩
      [("params", .obj [("b", .num 2)])] true "https://backend/test/path"
      ([("params", .obj [("a", .num 1)])] ++ [] ++ [("params", .obj [("b", .num 2)])])
      (by rfl) "params",
    c2_params_wholesale_amended.2.1 ⟨"https://backend", [("params", .obj [("a", .num 1)])]⟩
      [⟨"/test/path", [], .obj []⟩] [⟨fun _ => [], none⟩]
      [("params", .obj [("b", .num 2)])] true ⟨"/test/path", [], .obj []⟩
      ⟨fun _ => [], none⟩ "https://backend/test/path"
      ([("params", .obj [("a", .num 1)])] ++ [] ++ [("params", .obj [("b", .num 2)])])
      (by decide) (by rfl) (by rfl) (by rfl) "params",
    c2_params_wholesale_amended.2.2 [("params", .obj [("a", .num 1)])] []
      (paramsOf [("params", .obj [("b", .num 2)])]) "a"⟩

/-- C3: whenever the compiled validator reports a non-empty error set
for the effective options and validation is not skipped, the dispatch
call evaluates to the rejected deferred result
`Promise.reject(new ValidationError(url, errors, schema))` — a value,
not a synchronous throw — and the transport collaborator is not
invoked (the outcome is not `fetched`); this holds for the
single-endpoint dispatcher and for the overloaded dispatcher at its
selected overload. -/
theorem c3_validation_failure_rejects_without_transport :
    (∀ (self : Root) (cfg : Endpoint) (cv : CompiledValidator) (overrideOptions : Obj),
      cv.run (self.options ++ cfg.options ++ overrideOptions) ≠ [] →
      (fetchMethodSingle self cfg cv overrideOptions true).1 =
        .rejected ⟨self.baseUrl ++ cfg.pathname,
          cv.run (self.options ++ cfg.options ++ overrideOptions), cfg.schema⟩) ∧
    (∀ (self : Root) (config : List Endpoint) (compiled : List CompiledValidator)
        (overrideOptions : Obj) (overload : Endpoint) (cv : CompiledValidator),
      ¬ getMatchingOverload config self.options overrideOptions < 0 →
      config.get? (getMatchingOverload config self.options overrideOptions).toNat =
        some overload →
      compiled.get? (getMatchingOverload config self.options overrideOptions).toNat =
        some cv →
      cv.run (self.options ++ overload.options ++ overrideOptions) ≠ [] →
      (fetchMethodOverloaded self config compiled overrideOptions true).1 =
        .rejected ⟨self.baseUrl ++ overload.pathname,
          cv.run (self.options ++ overload.options ++ overrideOptions),
          overload.schema⟩) := by
  constructor
  · intro self cfg cv ov h
    rcases hrun : cv.run (self.options ++ cfg.options ++ ov) with _ | ⟨e, es⟩
    · exact absurd hrun h
    · rw [List.append_assoc] at hrun
      simp [fetchMethodSingle, runCompiled, hrun]
  · intro self config compiled ov overload cv hneg hc hcv h
    rcases hrun : cv.run (self.options ++ overload.options ++ ov) with _ | ⟨e, es⟩
    · exact absurd hrun h
    · rw [List.append_assoc] at hrun
      simp only [fetchMethodOverloaded, if_neg hneg, hc, hcv]
      simp [runCompiled, hrun]

/-- Witness for C3 at a concrete endpoint whose schema requires
`params.firstName` and a call supplying empty params: both dispatch
shapes reject with the validation error and the transport is not
invoked. -/
theorem c3_validation_failure_rejects_without_transport_witness :
    (fetchMethodSingle ⟨"https://backend/v1", []⟩ ⟨"/users/:id", [], .obj []⟩
        requireFirstName [("params", .obj [])] true).1 =
      .rejected ⟨"https://backend/v1/users/:id",
        requireFirstName.run ([] ++ [] ++ [("params", .obj [])]), .obj []⟩ ∧
    (fetchMethodOverloaded ⟨"https://backend/v1", []⟩
        [⟨"/users/:id", [], .obj []⟩] [requireFirstName]
        [("params", .obj [])] true).1 =
      .rejected ⟨"https://backend/v1/users/:id",
        requireFirstName.run ([] ++ [] ++ [("params", .obj [])]), .obj []⟩ :=
  ⟨c3_validation_failure_rejects_without_transport.1 ⟨"https://backend/v1", []⟩
      ⟨"/users/:id", [], .obj []⟩ requireFirstName [("params", .obj [])]
      (by simp [requireFirstName, paramsOf, olookup, hasKey]),
    c3_validation_failure_rejects_without_transport.2 ⟨"https://backend/v1", []⟩
      [⟨"/users/:id", [], .obj []⟩] [requireFirstName] [("params", .obj [])]
      ⟨"/users/:id", [], .obj []⟩ requireFirstName (by decide) rfl rfl
      (by simp [requireFirstName, paramsOf, olookup, hasKey])⟩

/-- C7: passing `validate = false` skips schema validation entirely:
whatever errors the compiled validator would report, the dispatch
invokes the transport exactly once with the built URL and the effective
options — for the single-endpoint dispatcher unconditionally, and for
the overloaded dispatcher at its selected overload — and the schema
stays attached: the compiled validation function carried into later
calls is unchanged. -/
theorem c7_validate_false_skips_validation :
    (∀ (self : Root) (cfg : Endpoint) (cv : CompiledValidator) (overrideOptions : Obj),
      (fetchMethodSingle self cfg cv overrideOptions false).1 =
        .fetched (self.baseUrl ++ cfg.pathname)
          (self.options ++ cfg.options ++ overrideOptions) ∧
      ((fetchMethodSingle self cfg cv overrideOptions false).2).run = cv.run) ∧
    (∀ (self : Root) (config : List Endpoint) (compiled : List CompiledValidator)
        (overrideOptions : Obj) (overload : Endpoint) (cv : CompiledValidator),
      ¬ getMatchingOverload config self.options overrideOptions < 0 →
      config.get? (getMatchingOverload config self.options overrideOptions).toNat =
        some overload →
      compiled.get? (getMatchingOverload config self.options overrideOptions).toNat =
        some cv →
      (fetchMethodOverloaded self config compiled overrideOptions false).1 =
        .fetched (self.baseUrl ++ overload.pathname)
          (self.options ++ overload.options ++ overrideOptions) ∧
      ((fetchMethodOverloaded self config compiled overrideOptions false).2).get?
          (getMatchingOverload config self.options overrideOptions).toNat =
        some ⟨cv.run, none⟩) := by
  constructor
  · intro self cfg cv ov
    exact ⟨rfl, rfl⟩
  · intro self config compiled ov overload cv hneg hc hcv
    have hlt : (getMatchingOverload config self.options ov).toNat < compiled.length :=
      List.get?_eq_some.mp hcv |>.1
    simp only [List.get?_eq_getElem?] at hc hcv
    constructor
    · simp [fetchMethodOverloaded, if_neg hneg, hc, hcv]
    · simp [fetchMethodOverloaded, if_neg hneg, hc, hcv, List.getElem?_set_self, hlt]

/-- Witness for C7's overloaded part at a concrete group whose schema
the supplied options violate: the transport is still invoked. -/
theorem c7_validate_false_skips_validation_witness :
    (fetchMethodOverloaded ⟨"https://backend/v1", []⟩
        [⟨"/users/:id", [], .obj []⟩] [requireFirstName]
        [("params", .obj [("id", .str "1234")])] false).1 =
      .fetched "https://backend/v1/users/:id"
        ([] ++ [] ++ [("params", .obj [("id", .str "1234")])]) ∧
    ((fetchMethodOverloaded ⟨"https://backend/v1", []⟩
        [⟨"/users/:id", [], .obj []⟩] [requireFirstName]
        [("params", .obj [("id", .str "1234")])] false).2).get?
      (getMatchingOverload [⟨"/users/:id", [], .obj []⟩] [] [("params", .obj [("id", .str "1234")])]).toNat =
      some ⟨requireFirstName.run, none⟩ :=
  c7_validate_false_skips_validation.2 ⟨"https://backend/v1", []⟩
    [⟨"/users/:id", [], .obj []⟩] [requireFirstName]
    [("params", .obj [("id", .str "1234")])] ⟨"/users/:id", [], .obj []⟩
    requireFirstName (by decide) rfl rfl

/-- C8: two consecutive calls to the same dispatch function, the first
with options failing the schema and the second with options satisfying
it: the first rejects with the ValidationError, the compiled validator
retains that error state afterwards (`errors` stays set, as the ajv
engine leaves it), and the second call nonetheless reports no error and
reaches the transport, because `delete compiled.errors` clears the
retained state before each validation runs.  Settled for the
single-endpoint dispatcher and for the overloaded dispatcher, whose
validator list threads the retained per-index error state from the
first call into the second. -/
theorem c8_no_error_state_leakage :
    (∀ (self : Root) (cfg : Endpoint) (cv : CompiledValidator) (ov1 ov2 : Obj),
      cv.run (self.options ++ cfg.options ++ ov1) ≠ [] →
      cv.run (self.options ++ cfg.options ++ ov2) = [] →
      (fetchMethodSingle self cfg cv ov1 true).1 =
        .rejected ⟨self.baseUrl ++ cfg.pathname,
          cv.run (self.options ++ cfg.options ++ ov1), cfg.schema⟩ ∧
      ((fetchMethodSingle self cfg cv ov1 true).2).errors =
        some (cv.run (self.options ++ cfg.options ++ ov1)) ∧
      (fetchMethodSingle self cfg ((fetchMethodSingle self cfg cv ov1 true).2) ov2 true).1 =
        .fetched (self.baseUrl ++ cfg.pathname) (self.options ++ cfg.options ++ ov2)) ∧
    (∀ (self : Root) (config : List Endpoint) (compiled : List CompiledValidator)
        (ov1 ov2 : Obj) (overload1 : Endpoint) (cv1 : CompiledValidator)
        (overload2 : Endpoint) (cv2 : CompiledValidator),
      ¬ getMatchingOverload config self.options ov1 < 0 →
      config.get? (getMatchingOverload config self.options ov1).toNat = some overload1 →
      compiled.get? (getMatchingOverload config self.options ov1).toNat = some cv1 →
      cv1.run (self.options ++ overload1.options ++ ov1) ≠ [] →
      ¬ getMatchingOverload config self.options ov2 < 0 →
      config.get? (getMatchingOverload config self.options ov2).toNat = some overload2 →
      ((fetchMethodOverloaded self config compiled ov1 true).2).get?
          (getMatchingOverload config self.options ov2).toNat = some cv2 →
      cv2.run (self.options ++ overload2.options ++ ov2) = [] →
      (fetchMethodOverloaded self config compiled ov1 true).1 =
        .rejected ⟨self.baseUrl ++ overload1.pathname,
          cv1.run (self.options ++ overload1.options ++ ov1), overload1.schema⟩ ∧
      ((fetchMethodOverloaded self config compiled ov1 true).2).get?
          (getMatchingOverload config self.options ov1).toNat =
        some ⟨cv1.run, some (cv1.run (self.options ++ overload1.options ++ ov1))⟩ ∧
      (fetchMethodOverloaded self config
          ((fetchMethodOverloaded self config compiled ov1 true).2) ov2 true).1 =
        .fetched (self.baseUrl ++ overload2.pathname)
          (self.options ++ overload2.options ++ ov2)) := by
  constructor
  · intro self cfg cv ov1 ov2 h1 h2
    rcases hrun1 : cv.run (self.options ++ cfg.options ++ ov1) with _ | ⟨e, es⟩
    · exact absurd hrun1 h1
    · rw [List.append_assoc] at hrun1
      rw [List.append_assoc] at h2
      refine ⟨?_, ?_, ?_⟩ <;>
        simp [fetchMethodSingle, runCompiled, hrun1, h2]
  · intro self config compiled ov1 ov2 overload1 cv1 overload2 cv2
      hneg1 hc1 hcv1 hrun1ne hneg2 hc2 hcv2 hrun2
    rcases hrun1 : cv1.run (self.options ++ overload1.options ++ ov1) with _ | ⟨e, es⟩
    · exact absurd hrun1 hrun1ne
    · have hlt1 : (getMatchingOverload config self.options ov1).toNat < compiled.length :=
        (List.get?_eq_some.mp hcv1).1
      rw [List.append_assoc] at hrun1
      rw [List.append_assoc] at hrun2
      refine ⟨?_, ?_, ?_⟩
      · simp only [fetchMethodOverloaded, if_neg hneg1, hc1, hcv1]
        simp [runCompiled, hrun1]
      · simp only [fetchMethodOverloaded, if_neg hneg1, hc1, hcv1]
        simp [runCompiled, hrun1, List.get?_eq_getElem?, List.getElem?_set_self, hlt1]
      · revert hcv2
        generalize (fetchMethodOverloaded self config compiled ov1 true).2 = L
        intro hcv2
        simp only [fetchMethodOverloaded, if_neg hneg2, hc2, hcv2]
        simp [runCompiled, hrun2]

/-- Witness for C8 with the required-\x66irstName validator, for both
dispatch shapes: the first call with empty params rejects, the error
state is retained on the compiled validator, and the second call
supplying firstName fetches. -/
theorem c8_no_error_state_leakage_witness :
    ((fetchMethodSingle ⟨"https://backend/v1", []⟩ ⟨"/users/:id", [], .obj []⟩
        requireFirstName [("params", .obj [])] true).1 =
      .rejected ⟨"https://backend/v1/users/:id",
        requireFirstName.run ([] ++ [] ++ [("params", .obj [])]), .obj []⟩ ∧
    ((fetchMethodSingle ⟨"https://backend/v1", []⟩ ⟨"/users/:id", [], .obj []⟩
        requireFirstName [("params", .obj [])] true).2).errors =
      some (requireFirstName.run ([] ++ [] ++ [("params", .obj [])])) ∧
    (fetchMethodSingle ⟨"https://backend/v1", []⟩ ⟨"/users/:id", [], .obj []⟩
        ((fetchMethodSingle ⟨"https://backend/v1", []⟩ ⟨"/users/:id", [], .obj []⟩
          requireFirstName [("params", .obj [])] true).2)
        [("params", .obj [("firstName", .str "John")])] true).1 =
      .fetched "https://backend/v1/users/:id"
        ([] ++ [] ++ [("params", .obj [("firstName", .str "John")])])) ∧
    ((fetchMethodOverloaded ⟨"https://backend/v1", []⟩ [⟨"/users/:id", [], .obj []⟩]
        [requireFirstName] [("params", .obj [])] true).1 =
      .rejected ⟨"https://backend/v1/users/:id",
        requireFirstName.run ([] ++ [] ++ [("params", .obj [])]), .obj []⟩ ∧
    ((fetchMethodOverloaded ⟨"https://backend/v1", []⟩ [⟨"/users/:id", [], .obj []⟩]
        [requireFirstName] [("params", .obj [])] true).2).get?
        (getMatchingOverload [⟨"/users/:id", [], .obj []⟩] []
          [("params", .obj [])]).toNat =
      some ⟨requireFirstName.run,
        some (requireFirstName.run ([] ++ [] ++ [("params", .obj [])]))⟩ ∧
    (fetchMethodOverloaded ⟨"https://backend/v1", []⟩ [⟨"/users/:id", [], .obj []⟩]
        ((fetchMethodOverloaded ⟨"https://backend/v1", []⟩ [⟨"/users/:id", [], .obj []⟩]
          [requireFirstName] [("params", .obj [])] true).2)
        [("params", .obj [("firstName", .str "John")])] true).1 =
      .fetched "https://backend/v1/users/:id"
        ([] ++ [] ++ [("params", .obj [("firstName", .str "John")])])) :=
  ⟨c8_no_error_state_leakage.1 ⟨"https://backend/v1", []⟩ ⟨"/users/:id", [], .obj []⟩
      requireFirstName [("params", .obj [])]
      [("params", .obj [("firstName", .str "John")])]
      (by simp [requireFirstName, paramsOf, olookup, hasKey])
      (by simp [requireFirstName, paramsOf, olookup, hasKey]),
    c8_no_error_state_leakage.2 ⟨"https://backend/v1", []⟩
      [⟨"/users/:id", [], .obj []⟩] [requireFirstName]
      [("params", .obj [])] [("params", .obj [("firstName", .str "John")])]
      ⟨"/users/:id", [], .obj []⟩ requireFirstName
      ⟨"/users/:id", [], .obj []⟩
      ⟨requireFirstName.run,
        some (requireFirstName.run ([] ++ [] ++ [("params", .obj [])]))⟩
      (by decide) (by rfl) (by rfl)
      (by simp [requireFirstName, paramsOf, olookup, hasKey])
      (by decide) (by rfl) (by rfl)
      (by simp [requireFirstName, paramsOf, olookup, hasKey])⟩

/-- C9: the `validate` flag has no influence on overload selection: for
the same base and override options, the overloaded dispatch resolves to
the same URL whether called with `validate = true` or
`validate = false` — the matcher runs before and independently of
validation. -/
theorem c9_validate_flag_independent_selection (self : Root) (config : List Endpoint)
    (compiled : List CompiledValidator) (overrideOptions : Obj) :
    resultUrl (fetchMethodOverloaded self config compiled overrideOptions true).1 =
      resultUrl (fetchMethodOverloaded self config compiled overrideOptions false).1 := by
  simp only [fetchMethodOverloaded]
  split
  · rfl
  · split
    · rename_i overload cv heq1 heq2
      rcases hrun : (runCompiled ⟨cv.run, none⟩
          (self.options ++ (overload.options ++ overrideOptions))).errors with _ | es <;>
        simp [hrun, resultUrl]
    · rfl

/-- C6: mutation of the tree-wide options fragment after construction
is observed by the next dispatch call.  Calling a stored dispatch node
after the root's options were replaced behaves exactly as on any other
root with the same `baseUrl` — whatever options either root held before
the mutation are irrelevant, because the closure re-reads
`self.options` at call time rather than capturing it at creation — and
the base scope of the dispatched effective options is exactly the
updated fragment. -/
theorem c6_dispatch_observes_mutated_options (t : Tree) (n : ApiNode) (o ov : Obj)
    (validate : Bool) (cfg : Endpoint) (cv : CompiledValidator) :
    (∀ t2 : Tree, t2.baseUrl = t.baseUrl →
      callNode (setOptions t2 o) n ov validate = callNode (setOptions t o) n ov validate) ∧
    (callNode (setOptions t o) (.fetchSingle cfg cv) ov validate).1 =
      (fetchMethodSingle ⟨nodeToString t.baseUrl, o⟩ cfg cv ov validate).1 := by
  constructor
  · intro t2 h
    cases n <;> simp [callNode, setOptions, toJS, h]
  · simp [callNode, setOptions, toJS]

/-- Witness for C6: two roots constructed with different auth headers
(`1234` and none), both mutated to the same new options carrying token
`5678`, dispatch identically afterwards, and the dispatched base
options are the new fragment. -/
theorem c6_dispatch_observes_mutated_options_witness :
    (callNode
        (setOptions ⟨.value (.str "https://backend"),
          .imap (.obj [("headers", .obj [("X-AUTH-TOKEN", .str "1234")])]), []⟩
          [("headers", .obj [("X-AUTH-TOKEN", .str "5678")])])
        (.fetchSingle ⟨"/users/:id", [], .obj []⟩ requireFirstName)
        [("params", .obj [("firstName", .str "John")])] true =
      callNode
        (setOptions ⟨.value (.str "https://backend"), .imap (.obj []), []⟩
          [("headers", .obj [("X-AUTH-TOKEN", .str "5678")])])
        (.fetchSingle ⟨"/users/:id", [], .obj []⟩ requireFirstName)
        [("params", .obj [("firstName", .str "John")])] true) ∧
    (callNode
        (setOptions ⟨.value (.str "https://backend"), .imap (.obj []), []⟩
          [("headers", .obj [("X-AUTH-TOKEN", .str "5678")])])
        (.fetchSingle ⟨"/users/:id", [], .obj []⟩ requireFirstName)
        [("params", .obj [("firstName", .str "John")])] true).1 =
      (fetchMethodSingle
        ⟨nodeToString (ApiNode.value (.str "https://backend")),
          [("headers", .obj [("X-AUTH-TOKEN", .str "5678")])]⟩
        ⟨"/users/:id", [], .obj []⟩ requireFirstName
        [("params", .obj [("firstName", .str "John")])] true).1 :=
  ⟨(c6_dispatch_observes_mutated_options
      ⟨.value (.str "https://backend"), .imap (.obj []), []⟩
      (.fetchSingle ⟨"/users/:id", [], .obj []⟩ requireFirstName)
      [("headers", .obj [("X-AUTH-TOKEN", .str "5678")])]
      [("params", .obj [("firstName", .str "John")])] true
      ⟨"/users/:id", [], .obj []⟩ requireFirstName).1
      ⟨.value (.str "https://backend"),
        .imap (.obj [("headers", .obj [("X-AUTH-TOKEN", .str "1234")])]), []⟩ rfl,
    (c6_dispatch_observes_mutated_options
      ⟨.value (.str "https://backend"), .imap (.obj []), []⟩
      (.fetchSingle ⟨"/users/:id", [], .obj []⟩ requireFirstName)
      [("headers", .obj [("X-AUTH-TOKEN", .str "5678")])]
      [("params", .obj [("firstName", .str "John")])] true
      ⟨"/users/:id", [], .obj []⟩ requireFirstName).2⟩

/-- C10: because `Object.assign(this, parse(this, tree))` runs after
`this.baseUrl` and `this.options` are initialized, a top-level
configuration key named `baseUrl` (or `options`) overwrites the root's
own field with the parsed leaf value, and a dispatch function — which
reads the root at call time — then builds the transport URL from the
overwritten `baseUrl` instead of the constructor argument. -/
theorem c10_top_level_keys_overwrite_root (compile : JsValue → Obj → List VError)
    (b : JsValue) (opts : Obj) (u : String) (cfg : Endpoint) (ov : Obj)
    (validate : Bool) (v : JsValue) :
    (construct compile b
        (.subtree [("baseUrl", .value (.str u)), ("g", .endpoint cfg)]) opts).baseUrl =
      .value (.str u) ∧
    (construct compile b
        (.subtree [("baseUrl", .value (.str u)), ("g", .endpoint cfg)]) opts).children =
      [("g", .fetchSingle cfg ⟨compile cfg.schema, none⟩)] ∧
    (callNode
        (construct compile b
          (.subtree [("baseUrl", .value (.str u)), ("g", .endpoint cfg)]) opts)
        (.fetchSingle cfg ⟨compile cfg.schema, none⟩) ov validate).1 =
      (fetchMethodSingle ⟨u, opts⟩ cfg ⟨compile cfg.schema, none⟩ ov validate).1 ∧
    (construct compile b (.subtree [("options", .value v)]) opts).options = .value v := by
  refine ⟨?_, ?_, ?_, ?_⟩ <;>
    simp [construct, parseNode, parseFields, assignParsed, callNode, toJS,
      nodeToString, jsToString]

/-- Witness for C5 at a concrete one-element group. -/
theorem c5_matcher_index_in_range_witness :
    (0 ≤ getMatchingOverload [⟨"/users/:id", [], .obj []⟩] [] [] ∧
      (getMatchingOverload [⟨"/users/:id", [], .obj []⟩] [] []).toNat
        < [(⟨"/users/:id", [], .obj []⟩ : Endpoint)].length) ∧
    (0 ≤ getMatchingOverloadVariant [⟨"/users/:id", [], .obj []⟩] [] [] ∧
      (getMatchingOverloadVariant [⟨"/users/:id", [], .obj []⟩] [] []).toNat
        < [(⟨"/users/:id", [], .obj []⟩ : Endpoint)].length) :=
  c5_matcher_index_in_range [⟨"/users/:id", [], .obj []⟩] [] [] (by simp)

end ApiTree
